import Mathlib

/-!
Shallow embedding of the Orthanc DICOM bridge
(src/Core/DicomParsing/FromDcmtkBridge.cpp) together with theorems that
settle the frozen claims about it.  Pure functions of the C++ source are
translated to Lean functions; external collaborators (character-set
conversion, UUID generation, DCMTK string helpers) are abstracted as
explicit function parameters or modelled from the specification where the
source of the helper is not part of the repository snapshot.
-/

namespace Orthanc

/-- DICOM tag: pair of 16-bit group and element numbers (class DicomTag). -/
structure DicomTag where
  group : Nat
  element : Nat
  deriving DecidableEq

/-- The DCMTK value-representation enumeration (DcmEVR), restricted to the
constructors that the switch statements of FromDcmtkBridge.cpp distinguish. -/
inductive EVR where
  | AE | AS | AT | CS | DA | DS | DT | FL | FD | IS | LO | LT
  | OB | OD | OF | OL | OW | PN | SH | SL | SQ | SS | ST | TM
  | UC | UI | UL | UN | UR | US | UT
  | ox            -- OB or OW depending on context
  | xs            -- SS or US depending on context
  | lut           -- EVR_lt: US, SS or OW depending on context (LUT Data)
  | na | up
  | item | metainfo | dataset | fileFormat | dicomDir | dirRecord
  | pixelSQ | pixelItem | PixelData | OverlayData
  | UNKNOWN | UNKNOWN2B
  deriving DecidableEq

/-- Orthanc error codes (enum ErrorCode) raised by the functions under study. -/
inductive ErrorCode where
  | badParameterType
  | parameterOutOfRange
  | alreadyExistingTag
  | badRequest
  | internalError
  deriving DecidableEq

instance exceptDecEq {e a : Type} [DecidableEq e] [DecidableEq a] :
    DecidableEq (Except e a) := fun x y =>
  match x, y with
  | .ok u, .ok v =>
    if h : u = v then isTrue (by rw [h])
    else isFalse (fun hc => h (Except.ok.inj hc))
  | .error u, .error v =>
    if h : u = v then isTrue (by rw [h])
    else isFalse (fun hc => h (Except.error.inj hc))
  | .ok _, .error _ => isFalse (fun hc => Except.noConfusion hc)
  | .error _, .ok _ => isFalse (fun hc => Except.noConfusion hc)

/-- Orthanc's DicomValue: Null, a UTF-8 string, or raw binary bytes. -/
inductive DicomValue where
  | null
  | str (s : String)
  | binary (bytes : List Nat)
  deriving DecidableEq

/-- The character encodings recognised by the Orthanc core (enum Encoding). -/
inductive Encoding where
  | ascii | utf8
  | latin1 | latin2 | latin3 | latin4 | latin5
  | cyrillic | windows1251 | arabic | greek | hebrew | thai
  | japanese | chinese | korean
  deriving DecidableEq

/-- A DCMTK element as seen by the leaf codec: its tag, its value
representation, its raw payload bytes, and whether the object is a leaf of
the dataset tree (DcmElement::isLeaf; sequences are the non-leaf elements). -/
structure Element where
  tag : DicomTag
  vr : EVR
  payload : List Nat
  leaf : Bool
  deriving DecidableEq

/-! ### Character-set detection (FromDcmtkBridge::DetectEncoding) -/

/-- Splitting a character list on the backslash separator, keeping empty
components (the behaviour of splitting "a\b" into "a","b" and "" into ""). -/
def tokenizeChars : List Char → List String
  | [] => [""]
  | c :: rest =>
    if c = '\\' then
      "" :: tokenizeChars rest
    else
      match tokenizeChars rest with
      | t :: ts => String.mk (c :: t.data) :: ts
      | [] => [String.mk [c]]

/-- Modelled from the spec: Toolbox::TokenizeString splits a string on a
separator character, keeping empty components; DetectEncoding splits the
value of (0008,0005) on the backslash. -/
def TokenizeString (s : String) : List String :=
  tokenizeChars s.data

/-- Whitespace characters stripped by Toolbox::StripSpaces. -/
def isSpaceChar (c : Char) : Bool :=
  c = ' ' || c = '\t' || c = '\r' || c = '\n'

/-- Modelled from the spec: Toolbox::StripSpaces removes leading and
trailing whitespace from a component. -/
def StripSpaces (s : String) : String :=
  String.mk (((s.data.dropWhile isSpaceChar).reverse.dropWhile
    isSpaceChar).reverse)

/-- The loop of DetectEncoding over the components of (0008,0005): skip
empty components after stripping; on the first non-empty one, return its
encoding if recognised, else fall back to ASCII; if every component is
empty, return the default encoding. -/
def scanCharacterSets (recognise : String → Option Encoding)
    (defaultEncoding : Encoding) : List String → Encoding
  | [] => defaultEncoding
  | t :: rest =>
    let characterSet := StripSpaces t
    if characterSet = "" then
      scanCharacterSets recognise defaultEncoding rest
    else
      match recognise characterSet with
      | some encoding => encoding
      | none => Encoding.ascii

/-- FromDcmtkBridge::DetectEncoding.  The dataset is abstracted to the value
of its SpecificCharacterSet tag (0008,0005), if present; the helper
GetDicomEncoding is abstracted as the parameter `recognise`.  Returns the
detected encoding together with the hasCodeExtensions flag. -/
def DetectEncoding (recognise : String → Option Encoding)
    (specificCharacterSet : Option String)
    (defaultEncoding : Encoding) : Encoding × Bool :=
  match specificCharacterSet with
  | none => (defaultEncoding, false)
  | some value =>
    let tokens := TokenizeString value
    let hasCodeExtensions := tokens.length > 1
    (scanCharacterSets recognise defaultEncoding tokens, hasCodeExtensions)

/-- The first component of the list that is non-empty after stripping. -/
def firstNonEmptyComponent (value : String) : Option String :=
  ((TokenizeString value).map StripSpaces).find? (fun s => s ≠ "")

theorem scanCharacterSets_eq_find (recognise : String → Option Encoding)
    (dflt : Encoding) (tokens : List String) :
    scanCharacterSets recognise dflt tokens =
      match (tokens.map StripSpaces).find? (fun s => s ≠ "") with
      | none => dflt
      | some c => (match recognise c with
                   | some e => e
                   | none => Encoding.ascii) := by
  induction tokens with
  | nil => rfl
  | cons t rest ih =>
    by_cases h : StripSpaces t = ""
    · simp [scanCharacterSets, h, List.find?, ih]
    · simp [scanCharacterSets, h, List.find?]

/-- C1: DetectEncoding splits the value of tag (0008,0005) on the backslash
separator, strips spaces from each component, and returns the encoding of
the first component that is non-empty after stripping (so a leading empty
component is skipped), with hasCodeExtensions equal to (number of
components > 1); if that first non-empty component is not a recognised
code the result falls back to ASCII; when the tag is absent the result is
the default encoding with hasCodeExtensions = false. -/
theorem DetectEncoding_spec (recognise : String → Option Encoding)
    (dflt : Encoding) :
    (DetectEncoding recognise none dflt = (dflt, false))
    ∧ (∀ value : String,
        (DetectEncoding recognise (some value) dflt).2
          = decide ((TokenizeString value).length > 1))
    ∧ (∀ value c e, firstNonEmptyComponent value = some c →
        recognise c = some e →
        (DetectEncoding recognise (some value) dflt).1 = e)
    ∧ (∀ value c, firstNonEmptyComponent value = some c →
        recognise c = none →
        (DetectEncoding recognise (some value) dflt).1 = Encoding.ascii)
    ∧ (∀ value, firstNonEmptyComponent value = none →
        (DetectEncoding recognise (some value) dflt).1 = dflt) := by
  refine ⟨rfl, fun value => rfl, ?_, ?_, ?_⟩
  · intro value c e hfind hrec
    have h := scanCharacterSets_eq_find recognise dflt (TokenizeString value)
    simp only [DetectEncoding, h, firstNonEmptyComponent.eq_def] at hfind ⊢
    rw [hfind]
    simp [hrec]
  · intro value c hfind hrec
    have h := scanCharacterSets_eq_find recognise dflt (TokenizeString value)
    simp only [DetectEncoding, h, firstNonEmptyComponent.eq_def] at hfind ⊢
    rw [hfind]
    simp [hrec]
  · intro value hfind
    have h := scanCharacterSets_eq_find recognise dflt (TokenizeString value)
    simp only [DetectEncoding, h, firstNonEmptyComponent.eq_def] at hfind ⊢
    rw [hfind]

/-- A concrete recognition table used to instantiate the theorems: it
recognises the ISO 2022 Japanese code extension only. -/
def recogniseJapaneseOnly : String → Option Encoding := fun s =>
  if s = "ISO 2022 IR 87" then some Encoding.japanese else none

theorem DetectEncoding_spec_witness :
    (firstNonEmptyComponent "\\ISO 2022 IR 87" = some "ISO 2022 IR 87")
    ∧ DetectEncoding recogniseJapaneseOnly (some "\\ISO 2022 IR 87")
        Encoding.latin1 = (Encoding.japanese, true) := by
  have h := DetectEncoding_spec recogniseJapaneseOnly Encoding.latin1
  have hfind : firstNonEmptyComponent "\\ISO 2022 IR 87"
      = some "ISO 2022 IR 87" := by decide
  refine ⟨hfind, Prod.ext_iff.mpr ⟨?_, ?_⟩⟩
  · exact h.2.2.1 "\\ISO 2022 IR 87" "ISO 2022 IR 87" Encoding.japanese hfind rfl
  · exact (h.2.1 "\\ISO 2022 IR 87").trans (by decide)

/-! ### Fixed-width numeric decoding (ApplyDcmtkToCTypeConverter) -/

/-- Little-endian interpretation of a byte list as an unsigned integer. -/
def leNat (bs : List Nat) : Nat :=
  bs.foldr (fun b acc => acc * 256 + b % 256) 0

/-- Two's-complement signed interpretation of a byte list. -/
def leInt (bs : List Nat) : Int :=
  if leNat bs < 2 ^ (8 * bs.length - 1) then (leNat bs : Int)
  else (leNat bs : Int) - 2 ^ (8 * bs.length)

/-- Decimal string of an unsigned component, as boost::lexical_cast
produces for Uint16/Uint32. -/
def uintString (bs : List Nat) : String := toString (leNat bs)

/-- Decimal string of a signed component, as boost::lexical_cast produces
for Sint16/Sint32. -/
def sintString (bs : List Nat) : String := toString (leInt bs)

/-- DCMTK's getSint32/getUint32/getSint16/getUint16/getFloat32/getFloat64
at index i on a fixed-width element: the call succeeds exactly when
component i lies inside the value field (i < length / width), and then
yields the width bytes of that component. -/
def getComponent (width : Nat) (payload : List Nat) (i : Nat) :
    Option (List Nat) :=
  if (i + 1) * width ≤ payload.length then
    some ((payload.drop (i * width)).take width)
  else
    none

/-- ApplyDcmtkToCTypeConverter (FromDcmtkBridge.cpp, lines 202-226): when
the payload is longer than one component and an exact multiple of the
component width, every component that decodes is stringified and the
strings are joined with a backslash; otherwise the single component 0 is
decoded, and failure of that decode yields Null. -/
def ApplyDcmtkToCTypeConverter (width : Nat) (toStr : List Nat → String)
    (payload : List Nat) : DicomValue :=
  if payload.length > width ∧ payload.length % width = 0 then
    .str (String.intercalate "\\"
      ((List.range (payload.length / width)).filterMap
        (fun i => (getComponent width payload i).map toStr)))
  else
    match getComponent width payload 0 with
    | some bs => .str (toStr bs)
    | none => .null

/-- The list of complete fixed-width components of a payload, in order. -/
def completeComponents (width : Nat) (payload : List Nat) :
    List (List Nat) :=
  (List.range (payload.length / width)).map
    (fun i => (payload.drop (i * width)).take width)

theorem filterMap_all_some {α β : Type} (f : α → Option β) (g : α → β)
    (l : List α) (h : ∀ a ∈ l, f a = some (g a)) :
    l.filterMap f = l.map g := by
  induction l with
  | nil => rfl
  | cons a rest ih =>
    rw [List.filterMap_cons, h a (List.mem_cons_self a rest), List.map_cons,
      ih (fun b hb => h b (List.mem_cons_of_mem a hb))]

theorem getComponent_complete (width : Nat) (payload : List Nat) (i : Nat)
    (hmod : payload.length % width = 0)
    (hi : i < payload.length / width) :
    getComponent width payload i
      = some ((payload.drop (i * width)).take width) := by
  unfold getComponent
  have hle : (i + 1) * width ≤ payload.length := by
    calc (i + 1) * width ≤ (payload.length / width) * width :=
          Nat.mul_le_mul_right _ hi
    _ = payload.length := Nat.div_mul_cancel (Nat.dvd_of_mod_eq_zero hmod)
  rw [if_pos hle]

theorem ApplyDcmtkToCTypeConverter_multi (width : Nat)
    (toStr : List Nat → String) (payload : List Nat)
    (hgt : payload.length > width) (hmod : payload.length % width = 0) :
    ApplyDcmtkToCTypeConverter width toStr payload
      = .str (String.intercalate "\\"
          ((completeComponents width payload).map toStr)) := by
  unfold ApplyDcmtkToCTypeConverter
  rw [if_pos ⟨hgt, hmod⟩]
  have h : (List.range (payload.length / width)).filterMap
      (fun i => (getComponent width payload i).map toStr)
      = (List.range (payload.length / width)).map
          (fun i => toStr ((payload.drop (i * width)).take width)) := by
    refine filterMap_all_some _ _ _ (fun i hi => ?_)
    rw [getComponent_complete width payload i hmod (List.mem_range.mp hi)]
    rfl
  rw [h]
  unfold completeComponents
  rw [List.map_map]
  rfl

theorem ApplyDcmtkToCTypeConverter_single (width : Nat)
    (toStr : List Nat → String) (payload : List Nat)
    (hnot : ¬(payload.length > width ∧ payload.length % width = 0))
    (hle : width ≤ payload.length) :
    ApplyDcmtkToCTypeConverter width toStr payload
      = .str (toStr (payload.take width)) := by
  unfold ApplyDcmtkToCTypeConverter getComponent
  rw [if_neg hnot]
  simp [Nat.one_mul, hle]

theorem ApplyDcmtkToCTypeConverter_none (width : Nat)
    (toStr : List Nat → String) (payload : List Nat)
    (hlt : payload.length < width) :
    ApplyDcmtkToCTypeConverter width toStr payload = .null := by
  unfold ApplyDcmtkToCTypeConverter getComponent
  have h1 : ¬(payload.length > width ∧ payload.length % width = 0) :=
    fun hc => absurd hc.1 (by omega)
  rw [if_neg h1]
  have h2 : ¬((0 + 1) * width ≤ payload.length) := by omega
  rw [if_neg h2]

/-! ### The leaf codec (FromDcmtkBridge::ConvertLeafElement) -/

/-- External collaborators of the leaf codec, abstracted as functions:
Toolbox::ConvertToUtf8, the dictionary probe of the EVR_UN branch (entry
found for the tag and its VR isaString), Toolbox::IsAsciiString, and the
boost stringification of decoded Float32/Float64 components. -/
structure ConvertContext where
  convertToUtf8 : List Nat → Encoding → Bool → String
  dictIsaString : DicomTag → Bool
  isAsciiString : List Nat → Bool
  floatStr32 : List Nat → String
  floatStr64 : List Nat → String

/-- DcmElement::isaString: true exactly for the DCMTK string classes. -/
def isaStringVR : EVR → Bool
  | .AE | .AS | .CS | .DA | .DS | .DT | .IS | .LO | .LT | .PN
  | .SH | .ST | .TM | .UI | .UT | .UC | .UR => true
  | _ => false

/-- The DCMTK-internal pseudo-VRs listed in the last arm of the switch of
ConvertLeafElement (EVR_xs, EVR_lt, EVR_na, EVR_up, EVR_item,
EVR_metainfo, EVR_dataset, EVR_fileFormat, EVR_dicomDir, EVR_dirRecord,
EVR_pixelSQ, EVR_pixelItem, EVR_PixelData, EVR_OverlayData). -/
def isPseudoVR : EVR → Bool
  | .xs | .lut | .na | .up | .item | .metainfo | .dataset | .fileFormat
  | .dicomDir | .dirRecord | .pixelSQ | .pixelItem | .PixelData
  | .OverlayData => true
  | _ => false

/-- A byte list read as a plain (ASCII) string. -/
def asciiString (bs : List Nat) : String :=
  String.mk (bs.map (fun b => Char.ofNat (b % 256)))

/-- One lowercase hexadecimal digit. -/
def hexDigit (n : Nat) : Char :=
  if n < 10 then Char.ofNat (48 + n) else Char.ofNat (87 + n)

/-- Four lowercase hexadecimal digits. -/
def hex4 (n : Nat) : String :=
  String.mk [hexDigit (n / 4096 % 16), hexDigit (n / 256 % 16),
             hexDigit (n / 16 % 16), hexDigit (n % 16)]

/-- Modelled from the spec: DicomTag::Format produces the eight-hex-digit
"GGGGEEEE" form of a tag. -/
def formatTag (t : DicomTag) : String :=
  hex4 t.group ++ hex4 t.element

/-- The switch statement of ConvertLeafElement (FromDcmtkBridge.cpp, lines
574-709): binary VRs honour the ConvertBinaryToNull flag, the six numeric
VRs go through ApplyDcmtkToCTypeConverter with their component width, AT
formats its first tag value, and SQ, the DCMTK-internal pseudo-VRs and
the default arm all yield Null. -/
def convertLeafSwitch (ctx : ConvertContext) (convertBinaryToNull : Bool)
    (e : Element) : DicomValue :=
  match e.vr with
  | .OB | .OF | .OW | .UN | .ox | .DS | .IS | .AS | .DA | .DT | .TM | .AE
  | .CS | .SH | .LO | .ST | .LT | .UT | .PN | .UI
  | .UNKNOWN | .UNKNOWN2B =>
    if convertBinaryToNull then .null else .binary e.payload
  | .SL => ApplyDcmtkToCTypeConverter 4 sintString e.payload
  | .SS => ApplyDcmtkToCTypeConverter 2 sintString e.payload
  | .UL => ApplyDcmtkToCTypeConverter 4 uintString e.payload
  | .US => ApplyDcmtkToCTypeConverter 2 uintString e.payload
  | .FL => ApplyDcmtkToCTypeConverter 4 ctx.floatStr32 e.payload
  | .FD => ApplyDcmtkToCTypeConverter 8 ctx.floatStr64 e.payload
  | .AT =>
    if 4 ≤ e.payload.length then
      .str (formatTag ⟨leNat (e.payload.take 2),
                       leNat ((e.payload.drop 2).take 2)⟩)
    else
      .null
  | .SQ => .null
  | .xs | .lut | .na | .up | .item | .metainfo | .dataset | .fileFormat
  | .dicomDir | .dirRecord | .pixelSQ | .pixelItem | .PixelData
  | .OverlayData => .null
  | _ => .null

/-- FromDcmtkBridge::ConvertLeafElement (lines 493-719).  A non-leaf
element fails with BadParameterType; a string-class element is converted
to UTF-8 and bounded by maxStringLength unless its tag is in
ignoreTagLength; an EVR_UN element whose dictionary VR is a string class
and whose bytes are pure ASCII is emitted without charset conversion;
everything else goes through the VR switch. -/
def ConvertLeafElement (ctx : ConvertContext) (convertBinaryToNull : Bool)
    (maxStringLength : Nat) (encoding : Encoding) (hasCodeExtensions : Bool)
    (ignoreTagLength : List DicomTag) (e : Element) :
    Except ErrorCode DicomValue :=
  if e.leaf = false then
    .error .badParameterType
  else if isaStringVR e.vr then
    if e.payload.isEmpty then
      .ok (.str "")
    else if maxStringLength ≠ 0
        ∧ (ctx.convertToUtf8 e.payload encoding hasCodeExtensions).utf8ByteSize
            > maxStringLength
        ∧ e.tag ∉ ignoreTagLength then
      .ok .null
    else
      .ok (.str (ctx.convertToUtf8 e.payload encoding hasCodeExtensions))
  else if e.vr = .UN ∧ ctx.dictIsaString e.tag = true
      ∧ ctx.isAsciiString e.payload = true then
    if e.payload.isEmpty then
      .ok (.str "")
    else if maxStringLength ≠ 0 ∧ e.payload.length > maxStringLength
        ∧ e.tag ∉ ignoreTagLength then
      .ok .null
    else
      .ok (.str (asciiString e.payload))
  else
    .ok (convertLeafSwitch ctx convertBinaryToNull e)

/-- The numeric VRs dispatched to ApplyDcmtkToCTypeConverter. -/
def numericVR : EVR → Bool
  | .SL | .SS | .UL | .US | .FL | .FD => true
  | _ => false

/-- The fixed component width, in bytes, of each numeric VR. -/
def componentWidth : EVR → Nat
  | .SS | .US => 2
  | .FD => 8
  | _ => 4

/-- The per-component stringification of each numeric VR. -/
def componentToString (ctx : ConvertContext) : EVR → List Nat → String
  | .SL, bs => sintString bs
  | .SS, bs => sintString bs
  | .UL, bs => uintString bs
  | .US, bs => uintString bs
  | .FL, bs => ctx.floatStr32 bs
  | .FD, bs => ctx.floatStr64 bs
  | _, _ => ""

/-- C2: on a leaf element of an integer or float VR (SL, SS, UL, US, FL,
FD), ConvertLeafElement runs the fixed-width component converter; a
payload of more than one complete component yields the stringified
components joined with a backslash, a payload that is not a whole
multiple of the component width but contains at least one component
yields the single value decoded from the first component, and a payload
shorter than one component (so that the only decode attempt fails) yields
Null. -/
theorem ConvertLeafElement_numeric (ctx : ConvertContext)
    (convertBinaryToNull : Bool) (maxStringLength : Nat) (encoding : Encoding)
    (hasCodeExtensions : Bool) (ignoreTagLength : List DicomTag) (e : Element)
    (hleaf : e.leaf = true) (hnum : numericVR e.vr = true) :
    (ConvertLeafElement ctx convertBinaryToNull maxStringLength encoding
        hasCodeExtensions ignoreTagLength e
      = .ok (ApplyDcmtkToCTypeConverter (componentWidth e.vr)
          (componentToString ctx e.vr) e.payload))
    ∧ (e.payload.length > componentWidth e.vr
        ∧ e.payload.length % componentWidth e.vr = 0 →
        ApplyDcmtkToCTypeConverter (componentWidth e.vr)
            (componentToString ctx e.vr) e.payload
          = .str (String.intercalate "\\"
              ((completeComponents (componentWidth e.vr) e.payload).map
                (componentToString ctx e.vr))))
    ∧ (¬(e.payload.length > componentWidth e.vr
          ∧ e.payload.length % componentWidth e.vr = 0) →
        componentWidth e.vr ≤ e.payload.length →
        ApplyDcmtkToCTypeConverter (componentWidth e.vr)
            (componentToString ctx e.vr) e.payload
          = .str (componentToString ctx e.vr
              (e.payload.take (componentWidth e.vr))))
    ∧ (e.payload.length < componentWidth e.vr →
        ApplyDcmtkToCTypeConverter (componentWidth e.vr)
            (componentToString ctx e.vr) e.payload = .null) := by
  refine ⟨?_, fun h => ApplyDcmtkToCTypeConverter_multi _ _ _ h.1 h.2,
    ApplyDcmtkToCTypeConverter_single _ _ _,
    ApplyDcmtkToCTypeConverter_none _ _ _⟩
  obtain ⟨tag, vr, payload, leaf⟩ := e
  simp only at hleaf hnum ⊢
  subst hleaf
  cases vr <;> simp_all [numericVR, ConvertLeafElement, isaStringVR,
    convertLeafSwitch, componentWidth, componentToString] <;> rfl

/-- A trivial instantiation of the external collaborators, used to
evaluate the theorems on concrete inputs. -/
def ctx0 : ConvertContext where
  convertToUtf8 := fun bs _ _ => asciiString bs
  dictIsaString := fun _ => false
  isAsciiString := fun _ => true
  floatStr32 := fun _ => ""
  floatStr64 := fun _ => ""

/-- A leaf of VR UL carrying twelve payload bytes (three components). -/
def elementUL12 : Element :=
  ⟨⟨0x0028, 0x1234⟩, .UL, [1, 0, 0, 0, 2, 0, 0, 0, 3, 0, 0, 0], true⟩

theorem ConvertLeafElement_numeric_witness :
    (elementUL12.leaf = true) ∧ (numericVR elementUL12.vr = true)
    ∧ ConvertLeafElement ctx0 false 0 Encoding.ascii false [] elementUL12
        = .ok (ApplyDcmtkToCTypeConverter 4 uintString elementUL12.payload)
    ∧ ApplyDcmtkToCTypeConverter 4 uintString elementUL12.payload
        = .str "1\\2\\3" :=
  ⟨rfl, rfl,
   (ConvertLeafElement_numeric ctx0 false 0 Encoding.ascii false []
     elementUL12 rfl rfl).1,
   by decide⟩

/-- C3 (amended): on a LEAF element whose VR is SQ or one of the
DCMTK-internal pseudo-VRs, ConvertLeafElement returns Null without
failing; on a non-leaf element, as every true sequence element is, it
fails with BadParameterType. -/
theorem ConvertLeafElement_sequence_pseudo (ctx : ConvertContext)
    (convertBinaryToNull : Bool) (maxStringLength : Nat) (encoding : Encoding)
    (hasCodeExtensions : Bool) (ignoreTagLength : List DicomTag) (e : Element)
    (hvr : e.vr = .SQ ∨ isPseudoVR e.vr = true) :
    (e.leaf = true →
      ConvertLeafElement ctx convertBinaryToNull maxStringLength encoding
        hasCodeExtensions ignoreTagLength e = .ok .null)
    ∧ (e.leaf = false →
      ConvertLeafElement ctx convertBinaryToNull maxStringLength encoding
        hasCodeExtensions ignoreTagLength e
          = .error .badParameterType) := by
  obtain ⟨tag, vr, payload, leaf⟩ := e
  simp only at hvr ⊢
  constructor
  · intro hleaf
    subst hleaf
    rcases hvr with h | h
    · subst h
      simp [ConvertLeafElement, isaStringVR, convertLeafSwitch]
    · cases vr <;> simp_all [isPseudoVR, ConvertLeafElement, isaStringVR,
        convertLeafSwitch]
  · intro hleaf
    subst hleaf
    rfl

/-- An actual sequence element: VR SQ, not a leaf of the dataset tree. -/
def elementSQ : Element := ⟨⟨0x0008, 0x1140⟩, .SQ, [], false⟩

/-- The claim as frozen is false on the code: ConvertLeafElement on a
(non-leaf) sequence element of VR SQ does fail, with BadParameterType,
instead of returning Null. -/
theorem ConvertLeafElement_sq_counterexample :
    elementSQ.vr = EVR.SQ
    ∧ ConvertLeafElement ctx0 false 0 Encoding.ascii false [] elementSQ
        = .error ErrorCode.badParameterType
    ∧ ConvertLeafElement ctx0 false 0 Encoding.ascii false [] elementSQ
        ≠ .ok DicomValue.null :=
  ⟨rfl, rfl, fun h => Except.noConfusion h⟩

/-- A leaf carrying the DCMTK-internal pseudo-VR EVR_lt. -/
def elementLUT : Element := ⟨⟨0x0028, 0x3006⟩, .lut, [1, 2], true⟩

theorem ConvertLeafElement_sequence_pseudo_witness :
    (elementLUT.vr = EVR.SQ ∨ isPseudoVR elementLUT.vr = true)
    ∧ (elementLUT.leaf = true)
    ∧ ConvertLeafElement ctx0 false 0 Encoding.ascii false [] elementLUT
        = .ok .null :=
  ⟨Or.inr rfl, rfl,
   (ConvertLeafElement_sequence_pseudo ctx0 false 0 Encoding.ascii false []
     elementLUT (Or.inr rfl)).1 rfl⟩

/-- C4: on a leaf element of a textual string VR, ConvertLeafElement
converts the raw bytes from the declared charset to UTF-8; when
maxStringLength is non-zero, the UTF-8 result is longer than
maxStringLength and the tag is not in ignoreTagLength, the result is
Null; an empty payload yields the empty string. -/
theorem ConvertLeafElement_string (ctx : ConvertContext)
    (convertBinaryToNull : Bool) (maxStringLength : Nat) (encoding : Encoding)
    (hasCodeExtensions : Bool) (ignoreTagLength : List DicomTag) (e : Element)
    (hleaf : e.leaf = true) (hstr : isaStringVR e.vr = true) :
    (e.payload = [] →
      ConvertLeafElement ctx convertBinaryToNull maxStringLength encoding
        hasCodeExtensions ignoreTagLength e = .ok (.str ""))
    ∧ (e.payload ≠ [] →
        maxStringLength ≠ 0 →
        (ctx.convertToUtf8 e.payload encoding hasCodeExtensions).utf8ByteSize
          > maxStringLength →
        e.tag ∉ ignoreTagLength →
        ConvertLeafElement ctx convertBinaryToNull maxStringLength encoding
          hasCodeExtensions ignoreTagLength e = .ok .null)
    ∧ (e.payload ≠ [] →
        ¬(maxStringLength ≠ 0
          ∧ (ctx.convertToUtf8 e.payload encoding
              hasCodeExtensions).utf8ByteSize > maxStringLength
          ∧ e.tag ∉ ignoreTagLength) →
        ConvertLeafElement ctx convertBinaryToNull maxStringLength encoding
          hasCodeExtensions ignoreTagLength e
            = .ok (.str (ctx.convertToUtf8 e.payload encoding
                hasCodeExtensions))) := by
  obtain ⟨tag, vr, payload, leaf⟩ := e
  simp only at hleaf hstr ⊢
  subst hleaf
  refine ⟨fun hemp => ?_, fun hemp h1 h2 h3 => ?_, fun hemp hnot => ?_⟩
  · subst hemp
    simp [ConvertLeafElement, hstr]
  · simp [ConvertLeafElement, hstr, hemp, h1, h2, h3]
  · simp only [ConvertLeafElement, hstr, if_true]
    rw [if_neg (show ¬(payload.isEmpty = true) by simp [hemp]), if_neg hnot]
    rfl

/-- A leaf of VR LO carrying the two bytes of "AB". -/
def elementLO : Element := ⟨⟨0x0010, 0x0010⟩, .LO, [65, 66], true⟩

theorem ConvertLeafElement_string_witness :
    (elementLO.leaf = true) ∧ (isaStringVR elementLO.vr = true)
    ∧ ConvertLeafElement ctx0 false 64 Encoding.latin1 false [] elementLO
        = .ok (.str (ctx0.convertToUtf8 elementLO.payload Encoding.latin1
            false))
    ∧ ctx0.convertToUtf8 elementLO.payload Encoding.latin1 false = "AB" :=
  ⟨rfl, rfl,
   (ConvertLeafElement_string ctx0 false 64 Encoding.latin1 false []
       elementLO rfl rfl).2.2 (by decide) (by decide),
   by decide⟩

/-! ### Dictionary registration (FromDcmtkBridge::RegisterDictionaryTag) -/

/-- A DCMTK dictionary entry as built by RegisterDictionaryTag: tag, VR,
symbolic name, multiplicity range (maxVM = none encodes DcmVariableVM,
i.e. unbounded), and the optional private creator. -/
structure DictEntry where
  tag : DicomTag
  vr : EVR
  name : String
  minVM : Nat
  maxVM : Option Nat
  privateCreator : Option String
  deriving DecidableEq

/-- The process-wide data dictionary, as the list of registered entries. -/
abbrev Dictionary := List DictEntry

/-- The result of a successful registration: the new dictionary and
whether the odd-group-without-private-creator warning was logged. -/
structure RegisterOk where
  dict : Dictionary
  warned : Bool
  deriving DecidableEq

/-- The group numbers a private tag must not have: even groups, and the
reserved odd groups 0x0001, 0x0003, 0x0005, 0x0007 and 0xFFFF. -/
def badPrivateGroup (g : Nat) : Bool :=
  g % 2 = 0 || g = 0x0001 || g = 0x0003 || g = 0x0005 || g = 0x0007
    || g = 0xFFFF

/-- DcmDataDictionary::findEntry by symbolic name. -/
def findEntryByName (d : Dictionary) (name : String) : Option DictEntry :=
  d.find? (fun entry => entry.name = name)

/-- FromDcmtkBridge::RegisterDictionaryTag (lines 315-407): reject
minMultiplicity = 0; translate maxMultiplicity = 0 to the unbounded
sentinel, otherwise reject maxMultiplicity < minMultiplicity; without a
private creator an odd group only logs a warning; with a private creator
an even or reserved group fails; a duplicate symbolic name fails with
AlreadyExistingTag; otherwise the entry is added. -/
def RegisterDictionaryTag (d : Dictionary) (tag : DicomTag) (vr : EVR)
    (name : String) (minMultiplicity maxMultiplicity : Nat)
    (privateCreator : String) : Except ErrorCode RegisterOk :=
  if minMultiplicity < 1 then
    .error .parameterOutOfRange
  else if maxMultiplicity ≠ 0 ∧ maxMultiplicity < minMultiplicity then
    .error .parameterOutOfRange
  else
    let maxVM : Option Nat :=
      if maxMultiplicity = 0 then none else some maxMultiplicity
    if privateCreator = "" then
      if (findEntryByName d name).isSome then
        .error .alreadyExistingTag
      else
        .ok ⟨d ++ [⟨tag, vr, name, minMultiplicity, maxVM, none⟩],
             decide (tag.group % 2 = 1)⟩
    else if badPrivateGroup tag.group then
      .error .parameterOutOfRange
    else if (findEntryByName d name).isSome then
      .error .alreadyExistingTag
    else
      .ok ⟨d ++ [⟨tag, vr, name, minMultiplicity, maxVM, some privateCreator⟩],
           false⟩

/-- C7: RegisterTag with minVM = 0 fails with ParameterOutOfRange; with
0 < maxVM < minVM it fails with ParameterOutOfRange; with maxVM = 0 (and
the remaining checks passing) it succeeds and the stored upper
multiplicity is the unbounded sentinel. -/
theorem RegisterDictionaryTag_multiplicity (d : Dictionary) (tag : DicomTag)
    (vr : EVR) (name : String) (privateCreator : String) :
    (∀ maxVM, RegisterDictionaryTag d tag vr name 0 maxVM privateCreator
        = .error .parameterOutOfRange)
    ∧ (∀ minVM maxVM, 1 ≤ minVM → 0 < maxVM → maxVM < minVM →
        RegisterDictionaryTag d tag vr name minVM maxVM privateCreator
          = .error .parameterOutOfRange)
    ∧ (∀ minVM, 1 ≤ minVM →
        (privateCreator = "" ∨ badPrivateGroup tag.group = false) →
        findEntryByName d name = none →
        RegisterDictionaryTag d tag vr name minVM 0 privateCreator
          = .ok ⟨d ++ [⟨tag, vr, name, minVM, none,
                if privateCreator = "" then none else some privateCreator⟩],
              if privateCreator = "" then decide (tag.group % 2 = 1)
              else false⟩) := by
  refine ⟨fun maxVM => ?_, fun minVM maxVM h1 h2 h3 => ?_,
    fun minVM h1 h2 h3 => ?_⟩
  · simp [RegisterDictionaryTag]
  · rw [RegisterDictionaryTag, if_neg (by omega), if_pos ⟨by omega, h3⟩]
  · rw [RegisterDictionaryTag, if_neg (by omega),
      if_neg (by simp), if_pos rfl]
    by_cases hpc : privateCreator = ""
    · simp [hpc, h3]
    · have hbad : badPrivateGroup tag.group = false := by
        rcases h2 with h | h
        · exact absurd h hpc
        · exact h
      simp [hpc, hbad, h3]

theorem RegisterDictionaryTag_multiplicity_witness :
    (RegisterDictionaryTag [] ⟨0x0011, 0x1001⟩ .LO "AcmePrivate" 0 1 "ACME"
        = .error .parameterOutOfRange)
    ∧ (RegisterDictionaryTag [] ⟨0x0011, 0x1001⟩ .LO "AcmePrivate" 3 2 "ACME"
        = .error .parameterOutOfRange)
    ∧ (RegisterDictionaryTag [] ⟨0x0011, 0x1001⟩ .LO "AcmePrivate" 1 0 "ACME"
        = .ok ⟨[⟨⟨0x0011, 0x1001⟩, .LO, "AcmePrivate", 1, none,
            some "ACME"⟩], false⟩) := by
  have h := RegisterDictionaryTag_multiplicity [] ⟨0x0011, 0x1001⟩ .LO
    "AcmePrivate" "ACME"
  refine ⟨h.1 1, h.2.1 3 2 (by decide) (by decide) (by decide), ?_⟩
  have h3 := h.2.2 1 (by decide) (Or.inr (by decide)) (by decide)
  simpa using h3

/-- C8: with a non-empty private creator, a tag whose group is even or in
{0x0001, 0x0003, 0x0005, 0x0007, 0xFFFF} always fails with
ParameterOutOfRange (the multiplicity checks that run first raise the
same error code); without a private creator, an odd-group tag with valid
multiplicities and a fresh name is still accepted, with the warning
flag set. -/
theorem RegisterDictionaryTag_privateGroup (d : Dictionary) (tag : DicomTag)
    (vr : EVR) (name : String) :
    (∀ minVM maxVM privateCreator, privateCreator ≠ "" →
        badPrivateGroup tag.group = true →
        RegisterDictionaryTag d tag vr name minVM maxVM privateCreator
          = .error .parameterOutOfRange)
    ∧ (∀ minVM maxVM, 1 ≤ minVM → (maxVM = 0 ∨ minVM ≤ maxVM) →
        tag.group % 2 = 1 →
        findEntryByName d name = none →
        RegisterDictionaryTag d tag vr name minVM maxVM ""
          = .ok ⟨d ++ [⟨tag, vr, name, minVM,
                if maxVM = 0 then none else some maxVM, none⟩], true⟩) := by
  constructor
  · intro minVM maxVM privateCreator hpc hbad
    by_cases h1 : minVM < 1
    · simp [RegisterDictionaryTag, h1]
    · by_cases h2 : maxVM ≠ 0 ∧ maxVM < minVM
      · rw [RegisterDictionaryTag, if_neg h1, if_pos h2]
      · rw [RegisterDictionaryTag, if_neg h1, if_neg h2, if_neg hpc,
          if_pos hbad]
  · intro minVM maxVM h1 h2 hodd hfresh
    rw [RegisterDictionaryTag, if_neg (by omega),
      if_neg (by rcases h2 with h | h <;> omega), if_pos rfl]
    simp [hfresh, hodd]

theorem RegisterDictionaryTag_privateGroup_witness :
    (RegisterDictionaryTag [] ⟨0x0010, 0x1001⟩ .LO "EvenPrivate" 1 1 "ACME"
        = .error .parameterOutOfRange)
    ∧ (RegisterDictionaryTag [] ⟨0x0007, 0x1001⟩ .LO "ReservedPrivate" 1 1
        "ACME" = .error .parameterOutOfRange)
    ∧ (RegisterDictionaryTag [] ⟨0x0011, 0x1001⟩ .LO "NoCreator" 1 1 ""
        = .ok ⟨[⟨⟨0x0011, 0x1001⟩, .LO, "NoCreator", 1, some 1, none⟩],
            true⟩) := by
  refine ⟨(RegisterDictionaryTag_privateGroup [] ⟨0x0010, 0x1001⟩ .LO
      "EvenPrivate").1 1 1 "ACME" (by decide) (by decide),
    (RegisterDictionaryTag_privateGroup [] ⟨0x0007, 0x1001⟩ .LO
      "ReservedPrivate").1 1 1 "ACME" (by decide) (by decide), ?_⟩
  have h := (RegisterDictionaryTag_privateGroup [] ⟨0x0011, 0x1001⟩ .LO
    "NoCreator").2 1 1 (by decide) (Or.inr (by decide)) (by decide)
    (by decide)
  simpa using h

/-- C9: after a successful registration under a symbolic name, looking up
that name returns the registered entry, and any later registration under
the same name - for any tag and creator, as long as the multiplicity and
private-group checks that run first pass - fails with AlreadyExistingTag
(leaving the dictionary unchanged, since no entry is added on that path). -/
theorem RegisterDictionaryTag_duplicateName (d : Dictionary)
    (tag : DicomTag) (vr : EVR) (name : String)
    (minVM maxVM : Nat) (privateCreator : String) (r : RegisterOk)
    (hok : RegisterDictionaryTag d tag vr name minVM maxVM privateCreator
      = .ok r) :
    (∃ entry, findEntryByName r.dict name = some entry
      ∧ entry.tag = tag ∧ entry.vr = vr ∧ entry.name = name
      ∧ entry.minVM = minVM)
    ∧ (∀ tag2 vr2 minVM2 maxVM2 privateCreator2,
        1 ≤ minVM2 → (maxVM2 = 0 ∨ minVM2 ≤ maxVM2) →
        (privateCreator2 = "" ∨ badPrivateGroup tag2.group = false) →
        RegisterDictionaryTag r.dict tag2 vr2 name minVM2 maxVM2
          privateCreator2 = .error .alreadyExistingTag) := by
  have hdict : r.dict = d ++ [⟨tag, vr, name, minVM,
      if maxVM = 0 then none else some maxVM,
      if privateCreator = "" then none else some privateCreator⟩]
      ∧ findEntryByName d name = none := by
    rw [RegisterDictionaryTag] at hok
    by_cases h1 : minVM < 1
    · simp [h1] at hok
    · rw [if_neg h1] at hok
      by_cases h2 : maxVM ≠ 0 ∧ maxVM < minVM
      · simp [h2] at hok
      · rw [if_neg h2] at hok
        by_cases hpc : privateCreator = ""
        · rw [if_pos hpc] at hok
          by_cases hdup : (findEntryByName d name).isSome
          · simp [hdup] at hok
          · rw [if_neg hdup] at hok
            cases hok
            refine ⟨?_, Option.not_isSome_iff_eq_none.mp hdup⟩
            simp [hpc]
        · rw [if_neg hpc] at hok
          by_cases hbad : badPrivateGroup tag.group
          · simp [hbad] at hok
          · rw [if_neg hbad] at hok
            by_cases hdup : (findEntryByName d name).isSome
            · simp [hdup] at hok
            · rw [if_neg hdup] at hok
              cases hok
              refine ⟨?_, Option.not_isSome_iff_eq_none.mp hdup⟩
              simp [hpc]
  obtain ⟨hd, hfresh⟩ := hdict
  have hfind : findEntryByName r.dict name = some ⟨tag, vr, name, minVM,
      if maxVM = 0 then none else some maxVM,
      if privateCreator = "" then none else some privateCreator⟩ := by
    rw [hd, findEntryByName, List.find?_append]
    rw [findEntryByName] at hfresh
    rw [hfresh]
    simp [List.find?]
  refine ⟨⟨_, hfind, rfl, rfl, rfl, rfl⟩, ?_⟩
  intro tag2 vr2 minVM2 maxVM2 privateCreator2 h1 h2 h3
  have hsome : (findEntryByName r.dict name).isSome := by
    rw [hfind]; rfl
  rw [RegisterDictionaryTag, if_neg (by omega),
    if_neg (by rcases h2 with h | h <;> omega)]
  by_cases hpc : privateCreator2 = ""
  · rw [if_pos hpc, if_pos hsome]
  · have hbad : badPrivateGroup tag2.group = false := by
      rcases h3 with h | h
      · exact absurd h hpc
      · exact h
    rw [if_neg hpc, if_neg (by simp [hbad]), if_pos hsome]

theorem RegisterDictionaryTag_duplicateName_witness :
    (RegisterDictionaryTag [] ⟨0x0011, 0x1001⟩ .LO "AcmeTag" 1 1 "ACME"
      = .ok ⟨[⟨⟨0x0011, 0x1001⟩, .LO, "AcmeTag", 1, some 1, some "ACME"⟩],
          false⟩)
    ∧ (∃ entry, findEntryByName
          [⟨⟨0x0011, 0x1001⟩, .LO, "AcmeTag", 1, some 1, some "ACME"⟩]
          "AcmeTag" = some entry
        ∧ entry.tag = ⟨0x0011, 0x1001⟩ ∧ entry.vr = .LO
        ∧ entry.name = "AcmeTag" ∧ entry.minVM = 1)
    ∧ RegisterDictionaryTag
        [⟨⟨0x0011, 0x1001⟩, .LO, "AcmeTag", 1, some 1, some "ACME"⟩]
        ⟨0x0013, 0x1001⟩ .SH "AcmeTag" 1 1 ""
          = .error .alreadyExistingTag := by
  have hok : RegisterDictionaryTag [] ⟨0x0011, 0x1001⟩ .LO "AcmeTag" 1 1
      "ACME" = .ok ⟨[⟨⟨0x0011, 0x1001⟩, .LO, "AcmeTag", 1, some 1,
        some "ACME"⟩], false⟩ := by decide
  have h := RegisterDictionaryTag_duplicateName [] ⟨0x0011, 0x1001⟩ .LO
    "AcmeTag" 1 1 "ACME" _ hok
  exact ⟨hok, h.1, h.2 ⟨0x0013, 0x1001⟩ .SH 1 1 "" (by decide)
    (Or.inr (by decide)) (Or.inl rfl)⟩


/-! ### Building a dataset from JSON (FromDcmtkBridge::FromJson) -/

/-- Tag (0008,0005) SpecificCharacterSet. -/
def DICOM_TAG_SPECIFIC_CHARACTER_SET : DicomTag := ⟨0x0008, 0x0005⟩

/-- Tag (0010,0020) PatientID. -/
def DICOM_TAG_PATIENT_ID : DicomTag := ⟨0x0010, 0x0020⟩

/-- Tag (0020,000d) StudyInstanceUID. -/
def DICOM_TAG_STUDY_INSTANCE_UID : DicomTag := ⟨0x0020, 0x000D⟩

/-- Tag (0020,000e) SeriesInstanceUID. -/
def DICOM_TAG_SERIES_INSTANCE_UID : DicomTag := ⟨0x0020, 0x000E⟩

/-- Tag (0008,0018) SOPInstanceUID. -/
def DICOM_TAG_SOP_INSTANCE_UID : DicomTag := ⟨0x0008, 0x0018⟩

/-- The four resource levels of GenerateUniqueIdentifier. -/
inductive ResourceType where
  | patient | study | series | instanceLevel
  deriving DecidableEq

/-- External collaborators of the JSON-to-dataset path: Toolbox::
GenerateUuid, DCMTK's dcmGenerateUniqueIdentifier with its SITE_*_UID_ROOT
constants, GetDicomSpecificCharacterSet, GetDicomEncoding, and the
element-level FromJson that renders one JSON value into element bytes. -/
structure JsonEnv where
  generateUuid : String
  dcmGenerateUniqueIdentifier : String → String
  siteStudyUidRoot : String
  siteSeriesUidRoot : String
  siteInstanceUidRoot : String
  getDicomSpecificCharacterSet : Encoding → String
  getDicomEncoding : String → Option Encoding
  makeElement : DicomTag → String → String

/-- FromDcmtkBridge::GenerateUniqueIdentifier (lines 1163-1187): a fresh
UUID for the patient level, dcmGenerateUniqueIdentifier with the study,
series or instance UID root for the other levels. -/
def GenerateUniqueIdentifier (env : JsonEnv) : ResourceType → String
  | .patient => env.generateUuid
  | .instanceLevel => env.dcmGenerateUniqueIdentifier env.siteInstanceUidRoot
  | .series => env.dcmGenerateUniqueIdentifier env.siteSeriesUidRoot
  | .study => env.dcmGenerateUniqueIdentifier env.siteStudyUidRoot

/-- The loop of ExtractEncoding over the members of the JSON object: an
empty SpecificCharacterSet value returns the default encoding, an
unrecognised one fails with BadRequest, a recognised one becomes the
current encoding, and the last current encoding is returned. -/
def extractEncoding (recognise : String → Option Encoding) :
    List (DicomTag × String) → Encoding → Encoding →
      Except ErrorCode Encoding
  | [], _, enc => .ok enc
  | (t, v) :: rest, dflt, enc =>
    if t = DICOM_TAG_SPECIFIC_CHARACTER_SET then
      if v = "" then
        .ok dflt
      else
        match recognise v with
        | none => .error .badRequest
        | some e => extractEncoding recognise rest dflt e
    else
      extractEncoding recognise rest dflt enc

/-- DcmItem::findAndDeleteElement followed by insert, and also
putAndInsertString: any element with the same tag is removed and the new
element is inserted.  The list order is the temporal insertion order. -/
def insertOrReplace (ds : List (DicomTag × String)) (t : DicomTag)
    (v : String) : List (DicomTag × String) :=
  ds.filter (fun p => p.1 ≠ t) ++ [(t, v)]

/-- FromDcmtkBridge::FromJson building a DcmDataset (lines 1908-1988):
resolve the encoding, write SpecificCharacterSet first, insert every
non-(0008,0005) member, then fill each of PatientID, StudyInstanceUID,
SeriesInstanceUID and SOPInstanceUID that was absent from the JSON when
generateIdentifiers is set. -/
def FromJson (env : JsonEnv) (json : List (DicomTag × String))
    (generateIdentifiers : Bool) (defaultEncoding : Encoding) :
    Except ErrorCode (List (DicomTag × String)) :=
  match extractEncoding env.getDicomEncoding json defaultEncoding
      defaultEncoding with
  | .error e => .error e
  | .ok encoding =>
    let ds0 := insertOrReplace [] DICOM_TAG_SPECIFIC_CHARACTER_SET
      (env.getDicomSpecificCharacterSet encoding)
    let hasPatientId := json.any (fun p => p.1 = DICOM_TAG_PATIENT_ID)
    let hasStudy := json.any (fun p => p.1 = DICOM_TAG_STUDY_INSTANCE_UID)
    let hasSeries := json.any (fun p => p.1 = DICOM_TAG_SERIES_INSTANCE_UID)
    let hasSop := json.any (fun p => p.1 = DICOM_TAG_SOP_INSTANCE_UID)
    let ds1 := json.foldl (fun ds p =>
      if p.1 = DICOM_TAG_SPECIFIC_CHARACTER_SET then ds
      else insertOrReplace ds p.1 (env.makeElement p.1 p.2)) ds0
    let ds2 := if !hasPatientId && generateIdentifiers then
        insertOrReplace ds1 DICOM_TAG_PATIENT_ID
          (GenerateUniqueIdentifier env .patient)
      else ds1
    let ds3 := if !hasStudy && generateIdentifiers then
        insertOrReplace ds2 DICOM_TAG_STUDY_INSTANCE_UID
          (GenerateUniqueIdentifier env .study)
      else ds2
    let ds4 := if !hasSeries && generateIdentifiers then
        insertOrReplace ds3 DICOM_TAG_SERIES_INSTANCE_UID
          (GenerateUniqueIdentifier env .series)
      else ds3
    let ds5 := if !hasSop && generateIdentifiers then
        insertOrReplace ds4 DICOM_TAG_SOP_INSTANCE_UID
          (GenerateUniqueIdentifier env .instanceLevel)
      else ds4
    .ok ds5

theorem insertOrReplace_head (ds : List (DicomTag × String)) (t : DicomTag)
    (v : String) (s : DicomTag) (x : String)
    (hds : ds.head? = some (s, x)) (hne : s ≠ t) :
    (insertOrReplace ds t v).head? = some (s, x) := by
  cases ds with
  | nil => simp at hds
  | cons p rest =>
    simp only [List.head?_cons, Option.some.injEq] at hds
    subst hds
    unfold insertOrReplace
    rw [List.filter_cons]
    simp [hne]

theorem insertOrReplace_mem_self (ds : List (DicomTag × String))
    (t : DicomTag) (v : String) : (t, v) ∈ insertOrReplace ds t v := by
  unfold insertOrReplace
  simp

theorem insertOrReplace_mem_of_ne (ds : List (DicomTag × String))
    (t : DicomTag) (v : String) (a : DicomTag) (b : String)
    (h : (a, b) ∈ ds) (hne : a ≠ t) : (a, b) ∈ insertOrReplace ds t v := by
  unfold insertOrReplace
  exact List.mem_append_left _ (List.mem_filter.mpr ⟨h, by simp [hne]⟩)

theorem foldl_insert_head (env : JsonEnv) (json : List (DicomTag × String))
    (ds : List (DicomTag × String)) (x : String)
    (hds : ds.head? = some (DICOM_TAG_SPECIFIC_CHARACTER_SET, x)) :
    (json.foldl (fun ds p =>
      if p.1 = DICOM_TAG_SPECIFIC_CHARACTER_SET then ds
      else insertOrReplace ds p.1 (env.makeElement p.1 p.2)) ds).head?
      = some (DICOM_TAG_SPECIFIC_CHARACTER_SET, x) := by
  induction json generalizing ds with
  | nil => exact hds
  | cons p rest ih =>
    simp only [List.foldl_cons]
    by_cases hp : p.1 = DICOM_TAG_SPECIFIC_CHARACTER_SET
    · rw [if_pos hp]
      exact ih ds hds
    · rw [if_neg hp]
      exact ih _ (insertOrReplace_head ds p.1 _ _ x hds
        (fun h => hp h.symm))

/-- C5: building a dataset from a JSON object that carries none of
PatientID, StudyInstanceUID, SeriesInstanceUID and SOPInstanceUID, with
generateIdentifiers set, fills each missing identifier (PatientID with
the fresh UUID, the three UIDs with the configured DICOM UID roots), and
SpecificCharacterSet (0008,0005) is the first tag written into the
dataset, before every other tag. -/
theorem FromJson_generateIdentifiers (env : JsonEnv)
    (json : List (DicomTag × String)) (dflt encoding : Encoding)
    (henc : extractEncoding env.getDicomEncoding json dflt dflt
      = .ok encoding)
    (hno : ∀ p ∈ json, p.1 ≠ DICOM_TAG_PATIENT_ID
      ∧ p.1 ≠ DICOM_TAG_STUDY_INSTANCE_UID
      ∧ p.1 ≠ DICOM_TAG_SERIES_INSTANCE_UID
      ∧ p.1 ≠ DICOM_TAG_SOP_INSTANCE_UID) :
    ∃ ds, FromJson env json true dflt = .ok ds
      ∧ ds.head? = some (DICOM_TAG_SPECIFIC_CHARACTER_SET,
          env.getDicomSpecificCharacterSet encoding)
      ∧ (DICOM_TAG_PATIENT_ID, env.generateUuid) ∈ ds
      ∧ (DICOM_TAG_STUDY_INSTANCE_UID,
          env.dcmGenerateUniqueIdentifier env.siteStudyUidRoot) ∈ ds
      ∧ (DICOM_TAG_SERIES_INSTANCE_UID,
          env.dcmGenerateUniqueIdentifier env.siteSeriesUidRoot) ∈ ds
      ∧ (DICOM_TAG_SOP_INSTANCE_UID,
          env.dcmGenerateUniqueIdentifier env.siteInstanceUidRoot) ∈ ds := by
  have hpid : json.any (fun p => p.1 = DICOM_TAG_PATIENT_ID) = false := by
    rw [List.any_eq_false]
    intro p hp
    simp [(hno p hp).1]
  have hstudy : json.any (fun p => p.1 = DICOM_TAG_STUDY_INSTANCE_UID)
      = false := by
    rw [List.any_eq_false]
    intro p hp
    simp [(hno p hp).2.1]
  have hseries : json.any (fun p => p.1 = DICOM_TAG_SERIES_INSTANCE_UID)
      = false := by
    rw [List.any_eq_false]
    intro p hp
    simp [(hno p hp).2.2.1]
  have hsop : json.any (fun p => p.1 = DICOM_TAG_SOP_INSTANCE_UID)
      = false := by
    rw [List.any_eq_false]
    intro p hp
    simp [(hno p hp).2.2.2]
  have hfj : FromJson env json true dflt = .ok
      (insertOrReplace (insertOrReplace (insertOrReplace (insertOrReplace
        (json.foldl (fun ds p =>
          if p.1 = DICOM_TAG_SPECIFIC_CHARACTER_SET then ds
          else insertOrReplace ds p.1 (env.makeElement p.1 p.2))
          (insertOrReplace [] DICOM_TAG_SPECIFIC_CHARACTER_SET
            (env.getDicomSpecificCharacterSet encoding)))
        DICOM_TAG_PATIENT_ID env.generateUuid)
        DICOM_TAG_STUDY_INSTANCE_UID
          (env.dcmGenerateUniqueIdentifier env.siteStudyUidRoot))
        DICOM_TAG_SERIES_INSTANCE_UID
          (env.dcmGenerateUniqueIdentifier env.siteSeriesUidRoot))
        DICOM_TAG_SOP_INSTANCE_UID
          (env.dcmGenerateUniqueIdentifier env.siteInstanceUidRoot)) := by
    simp only [FromJson, henc, hpid, hstudy, hseries, hsop, Bool.and_true,
      Bool.not_false, if_true, GenerateUniqueIdentifier]
  refine ⟨_, hfj, ?_, ?_, ?_, ?_, ?_⟩
  · exact insertOrReplace_head _ _ _ _ _
      (insertOrReplace_head _ _ _ _ _
        (insertOrReplace_head _ _ _ _ _
          (insertOrReplace_head _ _ _ _ _
            (foldl_insert_head env json _ _ (by simp [insertOrReplace]))
            (by decide)) (by decide)) (by decide)) (by decide)
  · exact insertOrReplace_mem_of_ne _ _ _ _ _
      (insertOrReplace_mem_of_ne _ _ _ _ _
        (insertOrReplace_mem_of_ne _ _ _ _ _
          (insertOrReplace_mem_self _ _ _) (by decide)) (by decide))
      (by decide)
  · exact insertOrReplace_mem_of_ne _ _ _ _ _
      (insertOrReplace_mem_of_ne _ _ _ _ _
        (insertOrReplace_mem_self _ _ _) (by decide)) (by decide)
  · exact insertOrReplace_mem_of_ne _ _ _ _ _
      (insertOrReplace_mem_self _ _ _) (by decide)
  · exact insertOrReplace_mem_self _ _ _

/-- A concrete environment for the JSON-to-dataset witnesses. -/
def jsonEnv0 : JsonEnv where
  generateUuid := "uuid-0001"
  dcmGenerateUniqueIdentifier := fun root => root ++ ".42"
  siteStudyUidRoot := "1.2.276.0.7230010.3.1.2"
  siteSeriesUidRoot := "1.2.276.0.7230010.3.1.3"
  siteInstanceUidRoot := "1.2.276.0.7230010.3.1.4"
  getDicomSpecificCharacterSet := fun _ => "ISO_IR 100"
  getDicomEncoding := fun _ => some Encoding.latin1
  makeElement := fun _ v => v

/-- The JSON object carrying only a PatientName. -/
def jsonPatientName : List (DicomTag × String) :=
  [(⟨0x0010, 0x0010⟩, "DOE^JOHN")]

theorem FromJson_generateIdentifiers_witness :
    (extractEncoding jsonEnv0.getDicomEncoding jsonPatientName
      Encoding.latin1 Encoding.latin1 = .ok Encoding.latin1)
    ∧ ∃ ds, FromJson jsonEnv0 jsonPatientName true Encoding.latin1 = .ok ds
      ∧ ds.head? = some (DICOM_TAG_SPECIFIC_CHARACTER_SET,
          jsonEnv0.getDicomSpecificCharacterSet Encoding.latin1)
      ∧ (DICOM_TAG_PATIENT_ID, jsonEnv0.generateUuid) ∈ ds
      ∧ (DICOM_TAG_STUDY_INSTANCE_UID,
          jsonEnv0.dcmGenerateUniqueIdentifier jsonEnv0.siteStudyUidRoot) ∈ ds
      ∧ (DICOM_TAG_SERIES_INSTANCE_UID,
          jsonEnv0.dcmGenerateUniqueIdentifier jsonEnv0.siteSeriesUidRoot)
          ∈ ds
      ∧ (DICOM_TAG_SOP_INSTANCE_UID,
          jsonEnv0.dcmGenerateUniqueIdentifier jsonEnv0.siteInstanceUidRoot)
          ∈ ds :=
  ⟨by decide,
   FromJson_generateIdentifiers jsonEnv0 jsonPatientName Encoding.latin1
     Encoding.latin1 (by decide) (by decide)⟩

/-! ### Saving a dataset (FromDcmtkBridge::SaveToMemoryBuffer) -/

/-- The DCMTK transfer syntaxes distinguished by the save path. -/
inductive TransferSyntax where
  | unknown
  | littleEndianImplicit
  | littleEndianExplicit
  | bigEndianExplicit
  | deflatedLittleEndian
  | jpegProcess1
  deriving DecidableEq

/-- Modelled from the spec: the DICOM UID of each transfer syntax, which
DCMTK's validateMetaInfo writes into meta-header tag (0002,0010) when a
dataset is saved with that syntax. -/
def transferSyntaxUid : TransferSyntax → String
  | .unknown => ""
  | .littleEndianImplicit => "1.2.840.10008.1.2"
  | .littleEndianExplicit => "1.2.840.10008.1.2.1"
  | .bigEndianExplicit => "1.2.840.10008.1.2.2"
  | .deflatedLittleEndian => "1.2.840.10008.1.2.1.99"
  | .jpegProcess1 => "1.2.840.10008.1.2.4.50"

/-- A DcmDataset abstracted to what the save path inspects: the transfer
syntax it was originally read with (getOriginalXfer). -/
structure DcmDatasetState where
  originalXfer : TransferSyntax
  deriving DecidableEq

/-- The written buffer, abstracted to its meta header: which transfer
syntax was used and the UID stored in tag (0002,0010). -/
structure SavedBuffer where
  metaTransferSyntaxUid : String
  xferUsed : TransferSyntax
  deriving DecidableEq

/-- FromDcmtkBridge::SaveToMemoryBuffer (lines 1189-1255): keep the
dataset's original transfer syntax when it is known, otherwise switch to
Little-Endian Explicit; validateMetaInfo then records the chosen syntax
in the meta header. -/
def SaveToMemoryBuffer (ds : DcmDatasetState) : SavedBuffer :=
  let xfer := if ds.originalXfer = .unknown then
      TransferSyntax.littleEndianExplicit
    else ds.originalXfer
  ⟨transferSyntaxUid xfer, xfer⟩

/-- C6: saving a dataset whose original transfer syntax is unknown writes
the Little-Endian Explicit UID "1.2.840.10008.1.2.1" into meta tag
(0002,0010); when the original transfer syntax is known, that syntax is
used and its UID is written. -/
theorem SaveToMemoryBuffer_transferSyntax (ds : DcmDatasetState) :
    (ds.originalXfer = .unknown →
      (SaveToMemoryBuffer ds).xferUsed = .littleEndianExplicit
      ∧ (SaveToMemoryBuffer ds).metaTransferSyntaxUid
          = "1.2.840.10008.1.2.1")
    ∧ (ds.originalXfer ≠ .unknown →
      (SaveToMemoryBuffer ds).xferUsed = ds.originalXfer
      ∧ (SaveToMemoryBuffer ds).metaTransferSyntaxUid
          = transferSyntaxUid ds.originalXfer) := by
  constructor
  · intro h
    simp [SaveToMemoryBuffer, h, transferSyntaxUid]
  · intro h
    simp [SaveToMemoryBuffer, h]

theorem SaveToMemoryBuffer_transferSyntax_witness :
    ((⟨.unknown⟩ : DcmDatasetState).originalXfer = .unknown
      ∧ (SaveToMemoryBuffer ⟨.unknown⟩).metaTransferSyntaxUid
          = "1.2.840.10008.1.2.1")
    ∧ ((⟨.littleEndianImplicit⟩ : DcmDatasetState).originalXfer ≠ .unknown
      ∧ (SaveToMemoryBuffer ⟨.littleEndianImplicit⟩).metaTransferSyntaxUid
          = "1.2.840.10008.1.2") :=
  ⟨⟨rfl, ((SaveToMemoryBuffer_transferSyntax ⟨.unknown⟩).1 rfl).2⟩,
   ⟨by decide,
    ((SaveToMemoryBuffer_transferSyntax ⟨.littleEndianImplicit⟩).2
      (by decide)).2⟩⟩


/-! ### The dataset walker (FromDcmtkBridge::Apply) -/

/-- An element of the dataset tree: a leaf, or a sequence owning an
ordered list of items, each item being itself a list of elements
(DcmSequenceOfItems over DcmItem). -/
inductive DElem where
  | leaf (e : Element)
  | seq (tag : DicomTag) (items : List (List DElem))

/-- One invocation of an ITagVisitor method, with the path arguments it
receives.  Doubles carry the raw byte components, leaving the IEEE float
interpretation abstract. -/
inductive VisitCall where
  | notSupported (parents : List DicomTag) (indexes : List Nat)
      (tag : DicomTag)
  | emptySequence (parents : List DicomTag) (indexes : List Nat)
      (tag : DicomTag)
  | binary (parents : List DicomTag) (indexes : List Nat) (tag : DicomTag)
      (bytes : List Nat)
  | integers (parents : List DicomTag) (indexes : List Nat) (tag : DicomTag)
      (values : List Int)
  | doubles (parents : List DicomTag) (indexes : List Nat) (tag : DicomTag)
      (components : List (List Nat))
  | attributes (parents : List DicomTag) (indexes : List Nat)
      (tag : DicomTag) (values : List DicomTag)
  | strVal (parents : List DicomTag) (indexes : List Nat) (tag : DicomTag)
      (utf8 : String)
  deriving DecidableEq

/-- The parents path argument of a visitor call. -/
def VisitCall.parents : VisitCall → List DicomTag
  | .notSupported p _ _ => p
  | .emptySequence p _ _ => p
  | .binary p _ _ _ => p
  | .integers p _ _ _ => p
  | .doubles p _ _ _ => p
  | .attributes p _ _ _ => p
  | .strVal p _ _ _ => p

/-- The indexes path argument of a visitor call. -/
def VisitCall.indexes : VisitCall → List Nat
  | .notSupported _ ix _ => ix
  | .emptySequence _ ix _ => ix
  | .binary _ ix _ _ => ix
  | .integers _ ix _ _ => ix
  | .doubles _ ix _ _ => ix
  | .attributes _ ix _ _ => ix
  | .strVal _ ix _ _ => ix

/-- The VR fixups at the top of ApplyVisitorToLeaf: EVR_ox becomes OB and
the two internal unknown forms become UN. -/
def fixLeafVR : EVR → EVR
  | .ox => .OB
  | .UNKNOWN => .UN
  | .UNKNOWN2B => .UN
  | v => v

/-- ApplyVisitorToLeaf (lines 2233-2618): binary VRs give VisitBinary;
string classes give VisitString on the UTF-8 conversion of the payload;
the string-VR arm of the switch scans for a terminating NUL and reports
VisitNotSupported when there is none; the numeric VRs decode every
complete component; AT decodes tag pairs; SQ and the default arm emit
nothing; the DCMTK-internal pseudo-VRs give VisitNotSupported. -/
def visitLeaf (conv : List Nat → Encoding → Bool → String)
    (encoding : Encoding) (hasCodeExtensions : Bool)
    (parents : List DicomTag) (indexes : List Nat) (e : Element) :
    List VisitCall :=
  let evr := fixLeafVR e.vr
  if evr = .OB ∨ evr = .OF ∨ evr = .OD ∨ evr = .OL ∨ evr = .OW
      ∨ evr = .UN then
    [.binary parents indexes e.tag e.payload]
  else if isaStringVR e.vr then
    [.strVal parents indexes e.tag
      (if e.payload.isEmpty then ""
       else conv e.payload encoding hasCodeExtensions)]
  else
    match evr with
    | .DS | .IS | .AS | .DA | .DT | .TM | .AE | .CS | .SH | .LO | .ST
    | .LT | .UT | .PN | .UI =>
      if (e.payload.takeWhile (fun b => b ≠ 0)).length = e.payload.length
      then
        [.notSupported parents indexes e.tag]
      else
        [.strVal parents indexes e.tag
          (conv (e.payload.takeWhile (fun b => b ≠ 0)) encoding
            hasCodeExtensions)]
    | .SL => [.integers parents indexes e.tag
        ((completeComponents 4 e.payload).map leInt)]
    | .SS => [.integers parents indexes e.tag
        ((completeComponents 2 e.payload).map leInt)]
    | .UL => [.integers parents indexes e.tag
        ((completeComponents 4 e.payload).map (fun bs => (leNat bs : Int)))]
    | .US => [.integers parents indexes e.tag
        ((completeComponents 2 e.payload).map (fun bs => (leNat bs : Int)))]
    | .FL => [.doubles parents indexes e.tag (completeComponents 4 e.payload)]
    | .FD => [.doubles parents indexes e.tag (completeComponents 8 e.payload)]
    | .AT => [.attributes parents indexes e.tag
        ((completeComponents 4 e.payload).map
          (fun bs => ⟨leNat (bs.take 2), leNat ((bs.drop 2).take 2)⟩))]
    | .SQ => []
    | .xs | .lut | .na | .up | .item | .metainfo | .dataset | .fileFormat
    | .dicomDir | .dirRecord | .pixelSQ | .pixelItem | .PixelData
    | .OverlayData => [.notSupported parents indexes e.tag]
    | _ => []

mutual

/-- ApplyVisitorToDataset (lines 2209-2230): visit every element of the
item, in insertion order. -/
def traceDataset (conv : List Nat → Encoding → Bool → String)
    (encoding : Encoding) (hasCodeExtensions : Bool)
    (parents : List DicomTag) (indexes : List Nat) :
    List DElem → List VisitCall
  | [] => []
  | e :: rest =>
    traceElement conv encoding hasCodeExtensions parents indexes e
      ++ traceDataset conv encoding hasCodeExtensions parents indexes rest

/-- ApplyVisitorToElement (lines 2621-2662): a leaf is dispatched to the
leaf visitor; an empty sequence gives VisitEmptySequence; a non-empty
sequence recurses into each item with the sequence tag and the item index
appended to the paths. -/
def traceElement (conv : List Nat → Encoding → Bool → String)
    (encoding : Encoding) (hasCodeExtensions : Bool)
    (parents : List DicomTag) (indexes : List Nat) :
    DElem → List VisitCall
  | .leaf e => visitLeaf conv encoding hasCodeExtensions parents indexes e
  | .seq tag items =>
    if items.isEmpty then
      [.emptySequence parents indexes tag]
    else
      traceItems conv encoding hasCodeExtensions parents indexes tag 0 items

/-- The loop over the items of a sequence, with the running item index i
written into the back of the indexes path. -/
def traceItems (conv : List Nat → Encoding → Bool → String)
    (encoding : Encoding) (hasCodeExtensions : Bool)
    (parents : List DicomTag) (indexes : List Nat) (tag : DicomTag)
    (i : Nat) : List (List DElem) → List VisitCall
  | [] => []
  | item :: rest =>
    traceDataset conv encoding hasCodeExtensions (parents ++ [tag])
      (indexes ++ [i]) item
      ++ traceItems conv encoding hasCodeExtensions parents indexes tag
          (i + 1) rest

end

/-- FromDcmtkBridge::Apply (lines 2665-2674): resolve the encoding once at
the root with DetectEncoding and start the traversal with empty parent
and index paths. -/
def Apply (recognise : String → Option Encoding)
    (conv : List Nat → Encoding → Bool → String)
    (specificCharacterSet : Option String) (defaultEncoding : Encoding)
    (ds : List DElem) : List VisitCall :=
  traceDataset conv
    (DetectEncoding recognise specificCharacterSet defaultEncoding).1
    (DetectEncoding recognise specificCharacterSet defaultEncoding).2
    [] [] ds

theorem visitLeaf_path (conv : List Nat → Encoding → Bool → String)
    (enc : Encoding) (ext : Bool) (parents : List DicomTag)
    (indexes : List Nat) (e : Element) (c : VisitCall)
    (hc : c ∈ visitLeaf conv enc ext parents indexes e) :
    c.parents = parents ∧ c.indexes = indexes := by
  obtain ⟨tag, vr, payload, leaf⟩ := e
  cases vr <;>
    simp only [visitLeaf, fixLeafVR, isaStringVR] at hc <;>
    (try split at hc) <;>
    simp_all [VisitCall.parents, VisitCall.indexes]

mutual

theorem traceDataset_path (conv : List Nat → Encoding → Bool → String)
    (enc : Encoding) (ext : Bool) (parents : List DicomTag)
    (indexes : List Nat) (ds : List DElem)
    (hlen : parents.length = indexes.length) :
    ∀ c ∈ traceDataset conv enc ext parents indexes ds,
      c.parents.length = c.indexes.length := by
  match ds with
  | [] =>
    intro c hc
    simp only [traceDataset, List.not_mem_nil] at hc
  | e :: rest =>
    intro c hc
    simp only [traceDataset] at hc
    rcases List.mem_append.mp hc with h | h
    · exact traceElement_path conv enc ext parents indexes e hlen c h
    · exact traceDataset_path conv enc ext parents indexes rest hlen c h

theorem traceElement_path (conv : List Nat → Encoding → Bool → String)
    (enc : Encoding) (ext : Bool) (parents : List DicomTag)
    (indexes : List Nat) (e : DElem)
    (hlen : parents.length = indexes.length) :
    ∀ c ∈ traceElement conv enc ext parents indexes e,
      c.parents.length = c.indexes.length := by
  match e with
  | .leaf el =>
    intro c hc
    simp only [traceElement] at hc
    have h := visitLeaf_path conv enc ext parents indexes el c hc
    rw [h.1, h.2]
    exact hlen
  | .seq tag items =>
    intro c hc
    simp only [traceElement] at hc
    by_cases hemp : items.isEmpty
    · rw [if_pos hemp] at hc
      simp only [List.mem_singleton] at hc
      subst hc
      exact hlen
    · rw [if_neg hemp] at hc
      exact traceItems_path conv enc ext parents indexes tag 0 items hlen
        c hc

theorem traceItems_path (conv : List Nat → Encoding → Bool → String)
    (enc : Encoding) (ext : Bool) (parents : List DicomTag)
    (indexes : List Nat) (tag : DicomTag) (i : Nat)
    (items : List (List DElem))
    (hlen : parents.length = indexes.length) :
    ∀ c ∈ traceItems conv enc ext parents indexes tag i items,
      c.parents.length = c.indexes.length := by
  match items with
  | [] =>
    intro c hc
    simp only [traceItems, List.not_mem_nil] at hc
  | item :: rest =>
    intro c hc
    simp only [traceItems] at hc
    rcases List.mem_append.mp hc with h | h
    · exact traceDataset_path conv enc ext (parents ++ [tag])
        (indexes ++ [i]) item (by simp [hlen]) c h
    · exact traceItems_path conv enc ext parents indexes tag (i + 1) rest
        hlen c h

end

theorem traceItems_eq_enumFrom (conv : List Nat → Encoding → Bool → String)
    (enc : Encoding) (ext : Bool) (parents : List DicomTag)
    (indexes : List Nat) (tag : DicomTag) (items : List (List DElem)) :
    ∀ i, traceItems conv enc ext parents indexes tag i items
      = ((items.enumFrom i).map (fun p =>
          traceDataset conv enc ext (parents ++ [tag])
            (indexes ++ [p.1]) p.2)).flatten := by
  induction items with
  | nil =>
    intro i
    simp [traceItems]
  | cons item rest ih =>
    intro i
    simp only [traceItems, List.enumFrom, List.map_cons, List.flatten_cons]
    rw [ih (i + 1)]

/-- C10: Apply resolves the encoding once at the root and traverses the
dataset depth-first in insertion order: the trace of a dataset is the
concatenation of the traces of its elements in order, a non-empty
sequence's trace is the concatenation over its items, in index order, of
the item traces with the sequence tag appended to parents and the item
index appended to indexes, an empty sequence produces one
VisitEmptySequence call, and at every visitor call the parents and
indexes paths have equal length. -/
theorem Apply_traversal (recognise : String → Option Encoding)
    (conv : List Nat → Encoding → Bool → String)
    (scs : Option String) (dflt : Encoding) :
    (∀ (ds : List DElem) (c : VisitCall),
        c ∈ Apply recognise conv scs dflt ds →
        c.parents.length = c.indexes.length)
    ∧ (∀ ds, Apply recognise conv scs dflt ds
        = traceDataset conv (DetectEncoding recognise scs dflt).1
            (DetectEncoding recognise scs dflt).2 [] [] ds)
    ∧ (∀ (enc : Encoding) (ext : Bool) (parents : List DicomTag)
          (indexes : List Nat) (ds : List DElem),
        traceDataset conv enc ext parents indexes ds
          = (ds.map (traceElement conv enc ext parents indexes)).flatten)
    ∧ (∀ (enc : Encoding) (ext : Bool) (parents : List DicomTag)
          (indexes : List Nat) (tag : DicomTag)
          (items : List (List DElem)), items ≠ [] →
        traceElement conv enc ext parents indexes (.seq tag items)
          = (items.enum.map (fun p =>
              traceDataset conv enc ext (parents ++ [tag])
                (indexes ++ [p.1]) p.2)).flatten)
    ∧ (∀ (enc : Encoding) (ext : Bool) (parents : List DicomTag)
          (indexes : List Nat) (tag : DicomTag),
        traceElement conv enc ext parents indexes (.seq tag [])
          = [.emptySequence parents indexes tag]) := by
  refine ⟨?_, fun ds => rfl, ?_, ?_, ?_⟩
  · intro ds c hc
    exact traceDataset_path conv _ _ [] [] ds rfl c hc
  · intro enc ext parents indexes ds
    induction ds with
    | nil => simp [traceDataset]
    | cons e rest ih =>
      simp only [traceDataset, List.map_cons, List.flatten_cons, ih]
  · intro enc ext parents indexes tag items hne
    have hemp : ¬items.isEmpty := by
      cases items with
      | nil => exact absurd rfl hne
      | cons a b => simp
    simp only [traceElement, if_neg hemp]
    rw [traceItems_eq_enumFrom conv enc ext parents indexes tag items 0]
    rfl
  · intro enc ext parents indexes tag
    simp [traceElement]

/-- A two-level demonstration dataset: a top-level string leaf followed by
a sequence with two items, each holding one string leaf. -/
def demoSeqTag : DicomTag := ⟨0x0008, 0x1140⟩

/-- The inner leaf of the second item. -/
def demoInnerLeaf : Element := ⟨⟨0x0010, 0x0020⟩, .LO, [66], true⟩

/-- The items of the demonstration sequence. -/
def demoItems : List (List DElem) :=
  [[.leaf ⟨⟨0x0010, 0x0010⟩, .LO, [65], true⟩], [.leaf demoInnerLeaf]]

/-- The demonstration dataset. -/
def demoDataset : List DElem :=
  [.leaf ⟨⟨0x0010, 0x0010⟩, .LO, [65], true⟩, .seq demoSeqTag demoItems]

/-- The visitor call expected for the leaf of the second item. -/
def demoCall : VisitCall :=
  .strVal [demoSeqTag] [1] ⟨0x0010, 0x0020⟩ "B"

theorem Apply_traversal_witness :
    (Apply recogniseJapaneseOnly (fun bs _ _ => asciiString bs) none
        Encoding.latin1 demoDataset
      = [.strVal [] [] ⟨0x0010, 0x0010⟩ "A",
         .strVal [demoSeqTag] [0] ⟨0x0010, 0x0010⟩ "A",
         demoCall])
    ∧ demoCall ∈ Apply recogniseJapaneseOnly (fun bs _ _ => asciiString bs)
        none Encoding.latin1 demoDataset
    ∧ demoCall.parents.length = demoCall.indexes.length := by
  have htrace : Apply recogniseJapaneseOnly (fun bs _ _ => asciiString bs)
      none Encoding.latin1 demoDataset
      = [.strVal [] [] ⟨0x0010, 0x0010⟩ "A",
         .strVal [demoSeqTag] [0] ⟨0x0010, 0x0010⟩ "A",
         demoCall] := by
    simp only [Apply, DetectEncoding, demoDataset, demoItems, demoCall,
      demoInnerLeaf, demoSeqTag, traceDataset, traceElement, traceItems,
      visitLeaf, fixLeafVR, isaStringVR, List.isEmpty]
    simp [asciiString]
  have hmem : demoCall ∈ Apply recogniseJapaneseOnly
      (fun bs _ _ => asciiString bs) none Encoding.latin1 demoDataset := by
    rw [htrace]
    simp
  exact ⟨htrace, hmem,
    (Apply_traversal recogniseJapaneseOnly (fun bs _ _ => asciiString bs)
      none Encoding.latin1).1 demoDataset demoCall hmem⟩

end Orthanc
